import Mathlib

/-!
Verification of the ref3t voice-transform pipeline.

The development shallowly embeds the two functions that form the core of the
repository (`transformAudio` and `audioBufferToWav`, identical in
`src/unnamed/part_000` and `src/profile-script.js`) together with the
`voicePresets` table.  JavaScript numbers are modelled as exact rationals or
reals; `DataView` stores are modelled as byte (`ℕ < 256`) lists; the WebIDL
`ToUint32` / `ToInt16` conversions are modelled as truncation toward zero
followed by the appropriate modulus.  The browser's `OfflineAudioContext`
render backend (resampler plus fixed low-pass biquad) is not part of the
repository; it is abstracted as a `RenderBackend` and the window/silence
semantics around it are modelled from the spec.
-/

namespace Ref3t

/-- Little-endian bytes of a 16-bit store, as `DataView.setUint16` writes the
low 16 bits of the value. -/
def u16le (v : ℕ) : List ℕ := [v % 256, v / 256 % 256]

/-- Little-endian bytes of a 32-bit store, as `DataView.setUint32` writes the
low 32 bits of the value. -/
def u32le (v : ℕ) : List ℕ :=
  [v % 256, v / 256 % 256, v / 2 ^ 16 % 256, v / 2 ^ 24 % 256]

/-- Read back a little-endian 16-bit unsigned value from a byte list. -/
def readU16 (l : List ℕ) (off : ℕ) : ℕ :=
  l.getD off 0 + 256 * l.getD (off + 1) 0

/-- Read back a little-endian 32-bit unsigned value from a byte list. -/
def readU32 (l : List ℕ) (off : ℕ) : ℕ :=
  l.getD off 0 + 256 * l.getD (off + 1) 0 + 2 ^ 16 * l.getD (off + 2) 0 +
    2 ^ 24 * l.getD (off + 3) 0

variable {α : Type} [LinearOrderedField α] [FloorRing α]

/-- Truncation toward zero, the rounding used by the ECMAScript
`ToInt16` / `ToUint32` abstract operations. -/
def jsTrunc (x : α) : ℤ := if 0 ≤ x then ⌊x⌋ else -⌊-x⌋

/-- The two little-endian bytes stored by `view.setInt16(pos, v, true)`:
the low 16 bits of the (already truncated) integer value. -/
def int16le (v : ℤ) : List ℕ :=
  [(v % 65536).toNat % 256, (v % 65536).toNat / 256]

/-- An `AudioBuffer`: channel-major sample data together with the frame
count, channel count and sample rate, and the well-formedness facts the
platform guarantees (one equal-length sequence per channel). -/
structure AudioBuffer (α : Type) where
  numberOfChannels : ℕ
  length : ℕ
  sampleRate : ℕ
  data : List (List α)
  hchan : data.length = numberOfChannels
  hlen : ∀ ch ∈ data, ch.length = length

/-- `audioBuffer.getChannelData(c)[f]`, the sample of channel `c` at frame
`f` (in-range reads only ever occur in the encoder loop). -/
def chanData (buf : AudioBuffer α) (c f : ℕ) : α :=
  (buf.data.getD c []).getD f 0

/-- Source line `Math.max(-1, Math.min(1, channels[i][offset]))`. -/
def clampSample (s : α) : α := max (-1) (min 1 s)

/-- Source lines: clamp, then
`sample = sample < 0 ? sample * 0x8000 : sample * 0x7FFF` followed by the
`setInt16` truncation toward zero. -/
def quantizeSample (s : α) : ℤ :=
  let c := clampSample s
  if c < 0 then jsTrunc (c * 32768) else jsTrunc (c * 32767)

/-- The two bytes the encoder's inner loop writes for one sample. -/
def sampleBytes (s : α) : List ℕ := int16le (quantizeSample s)

/-- One iteration of the encoder's `while` loop: the `numOfChan` interleaved
samples of frame `f`. -/
def frameBytes (buf : AudioBuffer α) (f : ℕ) : List ℕ :=
  (List.range buf.numberOfChannels).flatMap (fun c => sampleBytes (chanData buf c f))

/-- The number of frames the encoder's `while (pos < length - 44)` loop
actually writes.  The cursor `pos` is the same one used for the header and is
already `44` when the loop starts, stepping by `numOfChan * 2` per frame, so
the loop runs while `44 + k * (numOfChan * 2) < length - 44` — it stops 44
bytes before the end of the buffer and the trailing frames are never
encoded.  Iteration count: `⌈(frames * (chan * 2) - 44) / (chan * 2)⌉`. -/
def framesWritten (frames chan : ℕ) : ℕ :=
  (frames * (chan * 2) - 44 + (chan * 2 - 1)) / (chan * 2)

/-- The data section of the output buffer: the frames the truncated loop
writes (starting at byte 44, interleaved per frame), followed by the
remaining bytes of the `ArrayBuffer`, which stay at their zero
initialization because the loop never reaches them. -/
def wavData (buf : AudioBuffer α) : List ℕ :=
  (List.range (framesWritten buf.length buf.numberOfChannels)).flatMap (frameBytes buf) ++
    List.replicate (buf.length * buf.numberOfChannels * 2 -
      framesWritten buf.length buf.numberOfChannels * (buf.numberOfChannels * 2)) 0

/-- The 44-byte header written by the `setUint16`/`setUint32` calls of
`audioBufferToWav`, in source order.  `length` abbreviates the total byte
length `buf.length * numOfChan * 2 + 44`; the final field is
`length - pos - 4` with `pos = 40`. -/
def wavHeader (buf : AudioBuffer α) : List ℕ :=
  u32le 0x46464952 ++
  u32le (buf.length * buf.numberOfChannels * 2 + 44 - 8) ++
  u32le 0x45564157 ++
  u32le 0x20746d66 ++
  u32le 16 ++
  u16le 1 ++
  u16le buf.numberOfChannels ++
  u32le buf.sampleRate ++
  u32le (buf.sampleRate * 2 * buf.numberOfChannels) ++
  u16le (buf.numberOfChannels * 2) ++
  u16le 16 ++
  u32le 0x61746164 ++
  u32le (buf.length * buf.numberOfChannels * 2 + 44 - 44)

/-- `audioBufferToWav`: the header followed by the interleaved data section
(the source writes them into one `ArrayBuffer` of size
`length * numOfChan * 2 + 44`; here the buffer is the concatenation). -/
def audioBufferToWav (buf : AudioBuffer α) : List ℕ :=
  wavHeader buf ++ wavData buf

/-- The ECMAScript `ToUint32` conversion applied to a real value: truncate
toward zero, take the low 32 bits.  `NaN` and the infinities convert to `0`;
they arise here only from `x / 0`, which Lean's convention also sends to `0`,
so no separate case is needed. -/
noncomputable def jsToUint32 (x : ℝ) : ℕ := (jsTrunc x % 2 ^ 32).toNat

/-- Modelled from the spec: the browser's `OfflineAudioContext` signal chain
(`AudioBufferSourceNode` resampling at a fixed `playbackRate` feeding the
fixed 3000 Hz low-pass `BiquadFilterNode`) is platform code, not part of this
repository.  The spec fixes only that it is a deterministic backend producing
one filtered, rate-adjusted value per output frame and channel while the
source lasts; the backend is therefore kept abstract. -/
structure RenderBackend where
  sampleAt : AudioBuffer ℝ → ℝ → ℕ → ℕ → ℝ

/-- Modelled from the spec (§4.1 step 5): the offline render produces a
buffer with the source's channel count, the requested length and sample
rate; at output frame `n` the rate-adjusted source read position is
`n * rate` source frames, and once that position passes the end of the
source the remaining frames are silence (zero amplitude); the source is
truncated if it exceeds the window. -/
noncomputable def offlineRender (B : RenderBackend) (src : AudioBuffer ℝ) (rate : ℝ)
    (len sr : ℕ) : AudioBuffer ℝ :=
  ⟨src.numberOfChannels, len, sr,
    (List.range src.numberOfChannels).map (fun (c : ℕ) =>
      (List.range len).map (fun (n : ℕ) =>
        if (n : ℝ) * rate < (src.length : ℝ) then B.sampleAt src rate c n else 0)),
    by simp, by
      intro ch hch
      simp only [List.mem_map] at hch
      obtain ⟨c, -, rfl⟩ := hch
      simp⟩

/-- `transformAudio`, starting from the decoded `audioBuffer` (decoding
resamples to the context rate, so `audioBuffer.sampleRate` is also the
`audioContext.sampleRate` used for the offline context).  In source order:
`pitchRatio = Math.pow(2, pitchShift / 12)`;
`duration = audioBuffer.duration / playbackRate`;
`new OfflineAudioContext(numberOfChannels, duration * sampleRate, sampleRate)`
whose `length` argument undergoes `ToUint32` and whose constructor throws
`NotSupportedError` when `numberOfChannels` or `length` leaves its nominal
range (`1..32`, respectively `≥ 1`);
`source.playbackRate.value = playbackRate * pitchRatio`; render; encode. -/
noncomputable def transformAudio (B : RenderBackend) (audioBuffer : AudioBuffer ℝ)
    (pitchShift playbackRate : ℝ) : Except String (List ℕ) :=
  let pitchRatio := (2 : ℝ) ^ (pitchShift / 12)
  let duration := (audioBuffer.length : ℝ) / audioBuffer.sampleRate / playbackRate
  let len := jsToUint32 (duration * audioBuffer.sampleRate)
  if 1 ≤ audioBuffer.numberOfChannels ∧ audioBuffer.numberOfChannels ≤ 32 ∧ 1 ≤ len then
    Except.ok (audioBufferToWav
      (offlineRender B audioBuffer (playbackRate * pitchRatio) len audioBuffer.sampleRate))
  else
    Except.error "NotSupportedError"

/-- The tail of the pipeline after the ratio computation: the nominal-range
check, one offline render at a single uniform playback rate, and the WAV
encode.  Stated from the spec's description to compare with
`transformAudio`. -/
noncomputable def renderEncode (B : RenderBackend) (input : AudioBuffer ℝ) (rate : ℝ)
    (len : ℕ) : Except String (List ℕ) :=
  if 1 ≤ input.numberOfChannels ∧ input.numberOfChannels ≤ 32 ∧ 1 ≤ len then
    Except.ok (audioBufferToWav (offlineRender B input rate len input.sampleRate))
  else
    Except.error "NotSupportedError"

/-- The byte payload of a successful transform (`[]` for a failed one). -/
def wavBytes : Except String (List ℕ) → List ℕ
  | Except.ok l => l
  | Except.error _ => []

/-- The `voicePresets` table: preset name to `(pitch, speed)`. -/
def voicePresets : String → Option (ℚ × ℚ)
  | "original" => some (0, 1.0)
  | "deep-male" => some (-4, 0.95)
  | "male" => some (-2, 1.0)
  | "female" => some (4, 1.05)
  | "high-female" => some (6, 1.1)
  | "robotic" => some (-1, 0.9)
  | _ => none

/-- A trivial concrete backend used only to instantiate theorems. -/
def zeroBackend : RenderBackend := ⟨fun _ _ _ _ => 0⟩

/-- A concrete decoded input: one channel, four frames, 8000 Hz. -/
noncomputable def exInput : AudioBuffer ℝ :=
  ⟨1, 4, 8000, [[0, 0, 0, 0]], rfl, by
    intro ch hch
    rw [List.mem_singleton] at hch
    subst hch
    rfl⟩

/-- A concrete rendered buffer over `ℚ`: two channels, three frames. -/
def bufQ : AudioBuffer ℚ :=
  ⟨2, 3, 8000, [[1, 0, -1], [1/2, -1/2, 0]], rfl, by
    intro ch hch
    simp only [List.mem_cons, List.not_mem_nil, or_false] at hch
    rcases hch with rfl | rfl <;> rfl⟩

/-! Helper lemmas. -/

lemma length_sampleBytes (s : α) : (sampleBytes s).length = 2 := rfl

lemma length_flatMap_const {β γ : Type} (l : List β) (g : β → List γ) (k : ℕ)
    (h : ∀ b ∈ l, (g b).length = k) : (l.flatMap g).length = l.length * k := by
  induction l with
  | nil => simp
  | cons a t ih =>
    simp only [List.flatMap_cons, List.length_append, List.length_cons]
    rw [h a (by simp), ih (fun b hb => h b (by simp [hb]))]
    ring

lemma getD_flatMap_const {β γ : Type} (l : List β) (g : β → List γ) (k i j : ℕ) (d : γ)
    (h : ∀ b ∈ l, (g b).length = k) (hj : j < k) (hi : i < l.length) :
    (l.flatMap g).getD (i * k + j) d = (g (l.get ⟨i, hi⟩)).getD j d := by
  induction l generalizing i with
  | nil => simp at hi
  | cons a t ih =>
    cases i with
    | zero =>
      simp only [List.flatMap_cons, Nat.zero_mul, Nat.zero_add]
      rw [List.getD_append _ _ _ _ (by rw [h a (by simp)]; exact hj)]
      rfl
    | succ m =>
      simp only [List.flatMap_cons]
      have hlen : (g a).length = k := h a (by simp)
      have hk : (m + 1) * k + j = k + (m * k + j) := by ring
      rw [List.getD_append_right _ _ _ _ (by omega)]
      have hidx : (m + 1) * k + j - (g a).length = m * k + j := by omega
      rw [hidx, ih m (fun b hb => h b (by simp [hb])) (by simpa using hi)]
      rfl

lemma getD_replicate_zero (n i : ℕ) : (List.replicate n (0 : ℕ)).getD i 0 = 0 := by
  induction n generalizing i with
  | zero => simp
  | succ m ih =>
    cases i with
    | zero => rfl
    | succ j => simpa using ih j

lemma framesWritten_le (frames chan : ℕ) : framesWritten frames chan ≤ frames := by
  unfold framesWritten
  rcases Nat.eq_zero_or_pos chan with rfl | h
  · simp
  · have hs : 0 < chan * 2 := by omega
    rw [Nat.div_le_iff_le_mul_add_pred hs]
    calc frames * (chan * 2) - 44 + (chan * 2 - 1)
        ≤ frames * (chan * 2) + (chan * 2 - 1) :=
          Nat.add_le_add_right (Nat.sub_le _ _) _
      _ = chan * 2 * frames + (chan * 2 - 1) := by ring

lemma framesWritten_mul_le (frames chan : ℕ) :
    framesWritten frames chan * (chan * 2) ≤ frames * chan * 2 := by
  have h := Nat.mul_le_mul_right (chan * 2) (framesWritten_le frames chan)
  calc framesWritten frames chan * (chan * 2) ≤ frames * (chan * 2) := h
    _ = frames * chan * 2 := by ring

lemma length_frameBytes (buf : AudioBuffer α) (f : ℕ) :
    (frameBytes buf f).length = buf.numberOfChannels * 2 := by
  unfold frameBytes
  rw [length_flatMap_const _ _ 2 (fun b _ => length_sampleBytes _)]
  simp

lemma length_wavData (buf : AudioBuffer α) :
    (wavData buf).length = buf.length * (buf.numberOfChannels * 2) := by
  unfold wavData
  rw [List.length_append,
    length_flatMap_const _ _ (buf.numberOfChannels * 2) (fun b _ => length_frameBytes buf b),
    List.length_replicate, List.length_range]
  have h := framesWritten_mul_le buf.length buf.numberOfChannels
  have h2 : buf.length * buf.numberOfChannels * 2 = buf.length * (buf.numberOfChannels * 2) := by
    ring
  omega

lemma length_wavHeader (buf : AudioBuffer α) : (wavHeader buf).length = 44 := rfl

lemma length_audioBufferToWav (buf : AudioBuffer α) :
    (audioBufferToWav buf).length = buf.length * buf.numberOfChannels * 2 + 44 := by
  unfold audioBufferToWav
  rw [List.length_append, length_wavHeader, length_wavData]
  ring

lemma wavData_getD (buf : AudioBuffer α) (f c b : ℕ)
    (hw : f < framesWritten buf.length buf.numberOfChannels)
    (hc : c < buf.numberOfChannels) (hb : b < 2) (d : ℕ) :
    (wavData buf).getD (f * (buf.numberOfChannels * 2) + (c * 2 + b)) d
      = (sampleBytes (chanData buf c f)).getD b d := by
  unfold wavData
  have hflat : ((List.range (framesWritten buf.length buf.numberOfChannels)).flatMap
      (frameBytes buf)).length
      = framesWritten buf.length buf.numberOfChannels * (buf.numberOfChannels * 2) := by
    rw [length_flatMap_const _ _ (buf.numberOfChannels * 2)
      (fun x _ => length_frameBytes buf x)]
    simp
  rw [List.getD_append _ _ _ _ (by
    rw [hflat]
    have h2 : f * (buf.numberOfChannels * 2) + (buf.numberOfChannels * 2)
        ≤ framesWritten buf.length buf.numberOfChannels * (buf.numberOfChannels * 2) := by
      have := Nat.mul_le_mul_right (buf.numberOfChannels * 2) hw
      calc f * (buf.numberOfChannels * 2) + (buf.numberOfChannels * 2)
          = (f + 1) * (buf.numberOfChannels * 2) := by ring
        _ ≤ framesWritten buf.length buf.numberOfChannels * (buf.numberOfChannels * 2) := by
            exact Nat.mul_le_mul_right _ hw
    omega)]
  rw [getD_flatMap_const _ _ (buf.numberOfChannels * 2) f (c * 2 + b) d
    (fun x _ => length_frameBytes buf x) (by omega) (by simpa using hw)]
  rw [List.get_range]
  unfold frameBytes
  rw [getD_flatMap_const _ _ 2 c b d (fun x _ => length_sampleBytes _) hb (by simpa using hc)]
  rw [List.get_range]

lemma audioBufferToWav_data_getD (buf : AudioBuffer α) (f c b : ℕ)
    (hw : f < framesWritten buf.length buf.numberOfChannels)
    (hc : c < buf.numberOfChannels) (hb : b < 2) (d : ℕ) :
    (audioBufferToWav buf).getD (44 + (f * buf.numberOfChannels + c) * 2 + b) d
      = (sampleBytes (chanData buf c f)).getD b d := by
  unfold audioBufferToWav
  rw [List.getD_append_right _ _ _ _ (by rw [length_wavHeader]; omega)]
  rw [length_wavHeader]
  have h1 : 44 + (f * buf.numberOfChannels + c) * 2 + b - 44
      = f * (buf.numberOfChannels * 2) + (c * 2 + b) := by
    have h2 : (f * buf.numberOfChannels + c) * 2
        = f * (buf.numberOfChannels * 2) + c * 2 := by ring
    omega
  rw [h1, wavData_getD buf f c b hw hc hb d]

lemma audioBufferToWav_pad_getD (buf : AudioBuffer α) (f c b : ℕ)
    (hw : framesWritten buf.length buf.numberOfChannels ≤ f) :
    (audioBufferToWav buf).getD (44 + (f * buf.numberOfChannels + c) * 2 + b) 0 = 0 := by
  unfold audioBufferToWav
  rw [List.getD_append_right _ _ _ _ (by rw [length_wavHeader]; omega), length_wavHeader]
  have hidx : 44 + (f * buf.numberOfChannels + c) * 2 + b - 44
      = (f * buf.numberOfChannels + c) * 2 + b := by omega
  rw [hidx]
  unfold wavData
  have hflat : ((List.range (framesWritten buf.length buf.numberOfChannels)).flatMap
      (frameBytes buf)).length
      = framesWritten buf.length buf.numberOfChannels * (buf.numberOfChannels * 2) := by
    rw [length_flatMap_const _ _ (buf.numberOfChannels * 2)
      (fun x _ => length_frameBytes buf x)]
    simp
  have hbound : ((List.range (framesWritten buf.length buf.numberOfChannels)).flatMap
      (frameBytes buf)).length ≤ (f * buf.numberOfChannels + c) * 2 + b := by
    rw [hflat]
    have h2 : (f * buf.numberOfChannels + c) * 2
        = f * (buf.numberOfChannels * 2) + c * 2 := by ring
    have h3 : framesWritten buf.length buf.numberOfChannels * (buf.numberOfChannels * 2)
        ≤ f * (buf.numberOfChannels * 2) := Nat.mul_le_mul_right _ hw
    omega
  rw [List.getD_append_right _ _ _ _ hbound]
  exact getD_replicate_zero _ _

lemma wav_readU16_22 (buf : AudioBuffer α) :
    readU16 (audioBufferToWav buf) 22 = buf.numberOfChannels % 65536 := by
  simp only [audioBufferToWav, wavHeader, u16le, u32le, readU16, List.cons_append,
    List.nil_append, List.getD_cons_succ, List.getD_cons_zero]
  omega

lemma wav_readU32_24 (buf : AudioBuffer α) :
    readU32 (audioBufferToWav buf) 24 = buf.sampleRate % 4294967296 := by
  simp only [audioBufferToWav, wavHeader, u16le, u32le, readU32, List.cons_append,
    List.nil_append, List.getD_cons_succ, List.getD_cons_zero]
  omega

lemma wav_readU32_28 (buf : AudioBuffer α) :
    readU32 (audioBufferToWav buf) 28
      = buf.sampleRate * 2 * buf.numberOfChannels % 4294967296 := by
  simp only [audioBufferToWav, wavHeader, u16le, u32le, readU32, List.cons_append,
    List.nil_append, List.getD_cons_succ, List.getD_cons_zero]
  omega

lemma wav_readU16_32 (buf : AudioBuffer α) :
    readU16 (audioBufferToWav buf) 32 = buf.numberOfChannels * 2 % 65536 := by
  simp only [audioBufferToWav, wavHeader, u16le, u32le, readU16, List.cons_append,
    List.nil_append, List.getD_cons_succ, List.getD_cons_zero]
  omega

lemma wav_readU16_34 (buf : AudioBuffer α) :
    readU16 (audioBufferToWav buf) 34 = 16 := by
  simp only [audioBufferToWav, wavHeader, u16le, u32le, readU16, List.cons_append,
    List.nil_append, List.getD_cons_succ, List.getD_cons_zero]

lemma wav_readU32_40 (buf : AudioBuffer α) :
    readU32 (audioBufferToWav buf) 40
      = (buf.length * buf.numberOfChannels * 2 + 44 - 44) % 4294967296 := by
  simp only [audioBufferToWav, wavHeader, u16le, u32le, readU32, List.cons_append,
    List.nil_append, List.getD_cons_succ, List.getD_cons_zero]
  omega

lemma wav_readU32_4 (buf : AudioBuffer α) :
    readU32 (audioBufferToWav buf) 4
      = (buf.length * buf.numberOfChannels * 2 + 44 - 8) % 4294967296 := by
  simp only [audioBufferToWav, wavHeader, u16le, u32le, readU32, List.cons_append,
    List.nil_append, List.getD_cons_succ, List.getD_cons_zero]
  omega

lemma getD_map_range {γ : Type} (g : ℕ → γ) (n i : ℕ) (d : γ) (h : i < n) :
    ((List.range n).map g).getD i d = g i := by
  rw [List.getD_eq_getElem _ _ (by simpa using h)]
  simp

lemma clampSample_bounds (s : α) : -1 ≤ clampSample s ∧ clampSample s ≤ 1 := by
  unfold clampSample
  exact ⟨le_max_left _ _, max_le (by norm_num) (min_le_left _ _)⟩

lemma sampleBytes_zero : sampleBytes (0 : α) = [0, 0] := by
  have h : quantizeSample (0 : α) = 0 := by
    unfold quantizeSample clampSample jsTrunc
    norm_num
  unfold sampleBytes int16le
  rw [h]
  norm_num

lemma jsToUint32_eq_floor (x : ℝ) (h0 : 0 ≤ x) (h1 : x < 2 ^ 32) :
    jsToUint32 x = ⌊x⌋.toNat := by
  unfold jsToUint32 jsTrunc
  rw [if_pos h0, Int.emod_eq_of_lt (Int.floor_nonneg.mpr h0)]
  exact_mod_cast Int.floor_lt.mpr (by exact_mod_cast h1)

lemma transformAudio_ok (B : RenderBackend) (input : AudioBuffer ℝ) (pitch speed : ℝ)
    (h1 : 1 ≤ input.numberOfChannels) (h2 : input.numberOfChannels ≤ 32)
    (h3 : 1 ≤ jsToUint32 ((input.length : ℝ) / input.sampleRate / speed * input.sampleRate)) :
    transformAudio B input pitch speed = Except.ok (audioBufferToWav
      (offlineRender B input (speed * (2 : ℝ) ^ (pitch / 12))
        (jsToUint32 ((input.length : ℝ) / input.sampleRate / speed * input.sampleRate))
        input.sampleRate)) := by
  simp only [transformAudio]
  rw [if_pos ⟨h1, h2, h3⟩]

lemma offlineRender_numberOfChannels (B : RenderBackend) (src : AudioBuffer ℝ)
    (rate : ℝ) (len sr : ℕ) :
    (offlineRender B src rate len sr).numberOfChannels = src.numberOfChannels := rfl

lemma offlineRender_length (B : RenderBackend) (src : AudioBuffer ℝ)
    (rate : ℝ) (len sr : ℕ) : (offlineRender B src rate len sr).length = len := rfl

lemma offlineRender_sampleRate (B : RenderBackend) (src : AudioBuffer ℝ)
    (rate : ℝ) (len sr : ℕ) : (offlineRender B src rate len sr).sampleRate = sr := rfl

lemma renderLength_cancel (frames sr : ℕ) (speed : ℝ) (hsr : 0 < sr) :
    (frames : ℝ) / sr / speed * sr = (frames : ℝ) / speed := by
  have hsr' : ((sr : ℕ) : ℝ) ≠ 0 := by
    exact_mod_cast Nat.pos_iff_ne_zero.mp hsr
  rw [div_div, mul_comm (sr : ℝ) speed, ← div_div, div_mul_cancel₀ _ hsr']

lemma chanData_offlineRender_silent (B : RenderBackend) (src : AudioBuffer ℝ)
    (rate : ℝ) (len sr f c : ℕ) (hc : c < src.numberOfChannels) (hf : f < len)
    (hout : (src.length : ℝ) ≤ (f : ℝ) * rate) :
    chanData (offlineRender B src rate len sr) c f = 0 := by
  unfold chanData offlineRender
  rw [getD_map_range _ _ _ _ hc, getD_map_range _ _ _ _ hf]
  rw [if_neg (not_lt.mpr hout)]

/-! Claim theorems. -/

/-- C1 (code bug): the claim's interleaved layout is the spec's intent, but
the source's data loop `while (pos < length - 44)` starts with the cursor
already at 44, so it stops 44 bytes early and never encodes the trailing
frames.  Evaluated at the failing input `bufQ` (2 channels, 3 frames, sample
`1.0` at frame 0 of channel 0): no frame at all is written, the bytes at
offset 44 are zero, yet the quantized sample is `32767`, whose little-endian
low byte would have to be `255`. -/
theorem wav_data_truncated_bug :
    framesWritten bufQ.length bufQ.numberOfChannels = 0 ∧
    quantizeSample (chanData bufQ 0 0) = 32767 ∧
    (audioBufferToWav bufQ).getD (44 + (0 * bufQ.numberOfChannels + 0) * 2) 0 = 0 ∧
    (audioBufferToWav bufQ).getD (44 + (0 * bufQ.numberOfChannels + 0) * 2 + 1) 0 = 0 ∧
    ((32767 : ℤ) % 65536).toNat % 256 = 255 := by
  have hW : framesWritten bufQ.length bufQ.numberOfChannels = 0 := by decide
  have hcd : chanData bufQ 0 0 = 1 := rfl
  refine ⟨hW, ?_, ?_, ?_, by decide⟩
  · rw [hcd]
    unfold quantizeSample clampSample jsTrunc
    rw [min_eq_left (le_refl (1 : ℚ)), max_eq_right (by norm_num : (-1 : ℚ) ≤ 1)]
    norm_num
  · exact audioBufferToWav_pad_getD bufQ 0 0 0 (le_of_eq hW)
  · exact audioBufferToWav_pad_getD bufQ 0 0 1 (le_of_eq hW)

/-- C4: the container's byte length is `frameCount * channelCount * 2 + 44` and
the header fields at offsets 22/24/28/32/34/40/4 decode back to the producing
channel count, sample rate, byte rate, block align, bit depth, data size and
chunk size. -/
theorem wav_header_roundtrip (buf : AudioBuffer α)
    (hch : buf.numberOfChannels * 2 < 2 ^ 16)
    (hsr : buf.sampleRate < 2 ^ 32)
    (hbr : buf.sampleRate * 2 * buf.numberOfChannels < 2 ^ 32)
    (htot : buf.length * buf.numberOfChannels * 2 + 44 < 2 ^ 32) :
    (audioBufferToWav buf).length = buf.length * buf.numberOfChannels * 2 + 44 ∧
    readU16 (audioBufferToWav buf) 22 = buf.numberOfChannels ∧
    readU32 (audioBufferToWav buf) 24 = buf.sampleRate ∧
    readU32 (audioBufferToWav buf) 28 = buf.sampleRate * 2 * buf.numberOfChannels ∧
    readU16 (audioBufferToWav buf) 32 = buf.numberOfChannels * 2 ∧
    readU16 (audioBufferToWav buf) 34 = 16 ∧
    readU32 (audioBufferToWav buf) 40 = buf.length * buf.numberOfChannels * 2 + 44 - 44 ∧
    readU32 (audioBufferToWav buf) 4 = buf.length * buf.numberOfChannels * 2 + 44 - 8 := by
  refine ⟨length_audioBufferToWav buf, ?_, ?_, ?_, ?_, wav_readU16_34 buf, ?_, ?_⟩
  · rw [wav_readU16_22]; omega
  · rw [wav_readU32_24]; omega
  · rw [wav_readU32_28]; omega
  · rw [wav_readU16_32]; omega
  · rw [wav_readU32_40]; omega
  · rw [wav_readU32_4]; omega

/-- Witness for C4 at a concrete two-channel, three-frame buffer. -/
theorem wav_header_roundtrip_witness :
    (bufQ.numberOfChannels * 2 < 2 ^ 16 ∧ bufQ.sampleRate < 2 ^ 32 ∧
      bufQ.sampleRate * 2 * bufQ.numberOfChannels < 2 ^ 32 ∧
      bufQ.length * bufQ.numberOfChannels * 2 + 44 < 2 ^ 32) ∧
    ((audioBufferToWav bufQ).length = bufQ.length * bufQ.numberOfChannels * 2 + 44 ∧
      readU16 (audioBufferToWav bufQ) 22 = bufQ.numberOfChannels ∧
      readU32 (audioBufferToWav bufQ) 24 = bufQ.sampleRate ∧
      readU32 (audioBufferToWav bufQ) 28 = bufQ.sampleRate * 2 * bufQ.numberOfChannels ∧
      readU16 (audioBufferToWav bufQ) 32 = bufQ.numberOfChannels * 2 ∧
      readU16 (audioBufferToWav bufQ) 34 = 16 ∧
      readU32 (audioBufferToWav bufQ) 40 = bufQ.length * bufQ.numberOfChannels * 2 + 44 - 44 ∧
      readU32 (audioBufferToWav bufQ) 4 = bufQ.length * bufQ.numberOfChannels * 2 + 44 - 8) :=
  ⟨⟨by norm_num [bufQ], by norm_num [bufQ], by norm_num [bufQ], by norm_num [bufQ]⟩,
    wav_header_roundtrip bufQ (by norm_num [bufQ]) (by norm_num [bufQ])
      (by norm_num [bufQ]) (by norm_num [bufQ])⟩

/-- C5: the pipeline computes the equal-tempered ratio `2 ^ (pitch / 12)` and
hands the single combined value `speedFactor * 2 ^ (pitch / 12)` to the render
as its uniform playback-rate multiplier, while the render window length is
driven by `speedFactor` alone. -/
theorem transform_combined_rate (B : RenderBackend) (input : AudioBuffer ℝ)
    (pitch speed : ℝ) :
    transformAudio B input pitch speed
      = renderEncode B input (speed * (2 : ℝ) ^ (pitch / 12))
          (jsToUint32 ((input.length : ℝ) / input.sampleRate / speed * input.sampleRate)) := by
  rfl

/-- C7: a sample of exactly `1.0` quantizes to `32767`, exactly `-1.0` to
`-32768`, and out-of-range samples are hard-clamped to those bounds before
quantization. -/
theorem sample_clamp_encode (s : α) :
    quantizeSample (1 : α) = 32767 ∧
    quantizeSample (-1 : α) = -32768 ∧
    (1 ≤ s → quantizeSample s = 32767) ∧
    (s ≤ -1 → quantizeSample s = -32768) := by
  have hq1 : ∀ t : α, 1 ≤ t → quantizeSample t = 32767 := by
    intro t ht
    unfold quantizeSample clampSample jsTrunc
    rw [min_eq_left ht, max_eq_right (by norm_num : (-1 : α) ≤ 1)]
    norm_num
  have hq2 : ∀ t : α, t ≤ -1 → quantizeSample t = -32768 := by
    intro t ht
    unfold quantizeSample clampSample jsTrunc
    rw [min_eq_right (le_trans ht (by norm_num)), max_eq_left ht]
    norm_num
  exact ⟨hq1 1 le_rfl, hq2 (-1) le_rfl, hq1 s, hq2 s⟩

/-- Witness for C7 at the out-of-range sample `3/2`. -/
theorem sample_clamp_encode_witness :
    (1 : ℚ) ≤ 3 / 2 ∧ quantizeSample ((3 : ℚ) / 2) = 32767 :=
  ⟨by norm_num, (sample_clamp_encode ((3 : ℚ) / 2)).2.2.1 (by norm_num)⟩

/-- C8: the six presets are exactly
`original = (0, 1.0)`, `deep-male = (-4, 0.95)`, `male = (-2, 1.0)`,
`female = (4, 1.05)`, `high-female = (6, 1.1)`, `robotic = (-1, 0.9)`. -/
theorem voice_presets_exact :
    voicePresets "original" = some (0, 1.0) ∧
    voicePresets "deep-male" = some (-4, 0.95) ∧
    voicePresets "male" = some (-2, 1.0) ∧
    voicePresets "female" = some (4, 1.05) ∧
    voicePresets "high-female" = some (6, 1.1) ∧
    voicePresets "robotic" = some (-1, 0.9) :=
  ⟨rfl, rfl, rfl, rfl, rfl, rfl⟩

/-- C10: quantization multiplies a clamped sample by `32768` when negative and
by `32767` otherwise, truncates toward zero (`0 ↦ 0`, `0.5 ↦ 16383`,
`-0.5 ↦ -16384`), and the result always lies in `[-32768, 32767]`, so the
16-bit store never wraps. -/
theorem quantize_trunc_bounds (s : α) :
    quantizeSample (0 : α) = 0 ∧
    quantizeSample (1 / 2 : α) = 16383 ∧
    quantizeSample (-(1 / 2) : α) = -16384 ∧
    -32768 ≤ quantizeSample s ∧ quantizeSample s ≤ 32767 := by
  refine ⟨?_, ?_, ?_, ?_, ?_⟩
  · unfold quantizeSample clampSample jsTrunc
    norm_num
  · unfold quantizeSample clampSample jsTrunc
    rw [min_eq_right (by norm_num : (1 / 2 : α) ≤ 1),
      max_eq_right (by norm_num : (-1 : α) ≤ 1 / 2)]
    rw [if_neg (by norm_num), if_pos (by positivity)]
    rw [Int.floor_eq_iff]
    constructor <;> push_cast <;> norm_num
  · unfold quantizeSample clampSample jsTrunc
    rw [min_eq_right (by norm_num : (-(1 / 2) : α) ≤ 1),
      max_eq_right (by norm_num : (-1 : α) ≤ -(1 / 2))]
    rw [if_pos (by norm_num), if_neg (by norm_num)]
    norm_num
  · obtain ⟨hl, hr⟩ := clampSample_bounds s
    unfold quantizeSample
    by_cases h : clampSample s < 0
    · rw [if_pos h]
      unfold jsTrunc
      rw [if_neg (by linarith)]
      have : -clampSample s * 32768 ≤ 32768 := by nlinarith
      have hfl : ⌊-(clampSample s * 32768)⌋ ≤ 32768 := by
        calc ⌊-(clampSample s * 32768)⌋ ≤ ⌊(32768 : α)⌋ :=
              Int.floor_le_floor (by nlinarith)
          _ = 32768 := by norm_num
      omega
    · rw [if_neg h]
      unfold jsTrunc
      rw [if_pos (by nlinarith [not_lt.mp h])]
      have h0 : 0 ≤ clampSample s := not_lt.mp h
      have : (0 : ℤ) ≤ ⌊clampSample s * 32767⌋ := Int.floor_nonneg.mpr (by nlinarith)
      omega
  · obtain ⟨hl, hr⟩ := clampSample_bounds s
    unfold quantizeSample
    by_cases h : clampSample s < 0
    · rw [if_pos h]
      unfold jsTrunc
      rw [if_neg (by nlinarith)]
      have : (0 : ℤ) ≤ ⌊-(clampSample s * 32768)⌋ := Int.floor_nonneg.mpr (by nlinarith)
      omega
    · rw [if_neg h]
      unfold jsTrunc
      rw [if_pos (by nlinarith [not_lt.mp h])]
      have h0 : 0 ≤ clampSample s := not_lt.mp h
      calc ⌊clampSample s * 32767⌋ ≤ ⌊(32767 : α)⌋ := Int.floor_le_floor (by nlinarith)
        _ = 32767 := by norm_num

/-- C2 counterexample: at `speedFactor = 0` (a finite real value) the pipeline
does not run to completion: the computed render length is `ToUint32(∞) = 0`
and the offline context constructor rejects it, so the transform fails
instead of producing a container. -/
theorem transform_zero_speed_error :
    transformAudio zeroBackend exInput 0 0 = Except.error "NotSupportedError" := by
  have hcond : ¬ (1 ≤ exInput.numberOfChannels ∧ exInput.numberOfChannels ≤ 32 ∧
      1 ≤ jsToUint32 ((exInput.length : ℝ) / exInput.sampleRate / 0 * exInput.sampleRate)) := by
    intro h
    obtain ⟨-, -, h3⟩ := h
    norm_num [exInput, jsToUint32, jsTrunc] at h3
  simp only [transformAudio]
  rw [if_neg hcond]

/-- C2 amended: the transform runs to completion and produces a container
whenever the channel count is in the platform's nominal range `1..32` and the
computed render window length (`ToUint32` of the frame count divided by the
speed factor) is at least one frame; `speedFactor = 0` violates the latter and
fails. -/
theorem transform_ok_of_valid (B : RenderBackend) (input : AudioBuffer ℝ)
    (pitch speed : ℝ)
    (h1 : 1 ≤ input.numberOfChannels) (h2 : input.numberOfChannels ≤ 32)
    (h3 : 1 ≤ jsToUint32 ((input.length : ℝ) / input.sampleRate / speed * input.sampleRate)) :
    ∃ out, transformAudio B input pitch speed = Except.ok out :=
  ⟨_, transformAudio_ok B input pitch speed h1 h2 h3⟩

/-- Witness for the amended C2 at a concrete input and `speed = 1`. -/
theorem transform_ok_of_valid_witness :
    (1 ≤ exInput.numberOfChannels ∧ exInput.numberOfChannels ≤ 32 ∧
      1 ≤ jsToUint32 ((exInput.length : ℝ) / exInput.sampleRate / 1 * exInput.sampleRate)) ∧
    ∃ out, transformAudio zeroBackend exInput 0 1 = Except.ok out := by
  have h3 : 1 ≤ jsToUint32 ((exInput.length : ℝ) / exInput.sampleRate / 1 * exInput.sampleRate) := by
    have hx : ((exInput.length : ℕ) : ℝ) / exInput.sampleRate / 1 * exInput.sampleRate = 4 := by
      norm_num [exInput]
    rw [hx, jsToUint32_eq_floor 4 (by norm_num) (by norm_num)]
    norm_num
  exact ⟨⟨by norm_num [exInput], by norm_num [exInput], h3⟩,
    transform_ok_of_valid zeroBackend exInput 0 1 (by norm_num [exInput])
      (by norm_num [exInput]) h3⟩

/-- C3: for a speed factor in the supported range, the rendered frame count
(read off the container length) is within one frame of
`round(inputFrameCount / speedFactor)`, and it is the same for every value of
`pitchShiftSemitones`. -/
theorem output_frame_count (B : RenderBackend) (input : AudioBuffer ℝ)
    (pitch speed : ℝ)
    (hs1 : 7 / 10 ≤ speed) (hs2 : speed ≤ 13 / 10)
    (hsr : 0 < input.sampleRate) (hfr : 2 ≤ input.length)
    (hbig : input.length ≤ 2 ^ 31)
    (hch1 : 1 ≤ input.numberOfChannels) (hch2 : input.numberOfChannels ≤ 32) :
    ∃ L : ℕ,
      (wavBytes (transformAudio B input pitch speed)).length
          = L * input.numberOfChannels * 2 + 44 ∧
      |(L : ℝ) - (round ((input.length : ℝ) / speed) : ℤ)| ≤ 1 ∧
      ∀ p : ℝ, (wavBytes (transformAudio B input p speed)).length
          = L * input.numberOfChannels * 2 + 44 := by
  have hsp : (0 : ℝ) < speed := by linarith
  set x : ℝ := (input.length : ℝ) / speed with hxdef
  have hfr' : (2 : ℝ) ≤ (input.length : ℝ) := by exact_mod_cast hfr
  have hbig' : (input.length : ℝ) ≤ 2 ^ 31 := by exact_mod_cast hbig
  have hx1 : 1 ≤ x := by
    rw [hxdef, le_div_iff hsp]
    linarith
  have hx32 : x < 2 ^ 32 := by
    rw [hxdef, div_lt_iff hsp]
    nlinarith
  have hx0 : 0 ≤ x := by linarith
  have hL : jsToUint32 ((input.length : ℝ) / input.sampleRate / speed * input.sampleRate)
      = ⌊x⌋.toNat := by
    rw [renderLength_cancel input.length input.sampleRate speed hsr]
    exact jsToUint32_eq_floor x hx0 hx32
  have hfl1 : (1 : ℤ) ≤ ⌊x⌋ := Int.le_floor.mpr (by exact_mod_cast hx1)
  have h3 : 1 ≤ jsToUint32 ((input.length : ℝ) / input.sampleRate / speed * input.sampleRate) := by
    rw [hL]
    omega
  have hmain : ∀ p : ℝ, (wavBytes (transformAudio B input p speed)).length
      = ⌊x⌋.toNat * input.numberOfChannels * 2 + 44 := by
    intro p
    rw [transformAudio_ok B input p speed hch1 hch2 h3]
    simp only [wavBytes]
    rw [length_audioBufferToWav, offlineRender_length, offlineRender_numberOfChannels, hL]
  refine ⟨⌊x⌋.toNat, hmain pitch, ?_, hmain⟩
  have hfl0 : 0 ≤ ⌊x⌋ := by omega
  have hcast : ((⌊x⌋.toNat : ℕ) : ℝ) = ((⌊x⌋ : ℤ) : ℝ) := by
    exact_mod_cast congrArg (fun z : ℤ => (z : ℝ)) (Int.toNat_of_nonneg hfl0)
  have hle1 : ⌊x⌋ ≤ round x := by
    rw [round_eq]
    exact Int.floor_le_floor (by linarith)
  have hle2 : round x ≤ ⌊x⌋ + 1 := by
    rw [round_eq]
    calc ⌊x + 1 / 2⌋ ≤ ⌊x + 1⌋ := Int.floor_le_floor (by linarith)
      _ = ⌊x⌋ + 1 := Int.floor_add_one x
  have hle1' : ((⌊x⌋ : ℤ) : ℝ) ≤ ((round x : ℤ) : ℝ) := by exact_mod_cast hle1
  have hle2' : ((round x : ℤ) : ℝ) ≤ ((⌊x⌋ : ℤ) : ℝ) + 1 := by exact_mod_cast hle2
  rw [abs_le, hcast]
  constructor <;> linarith

/-- Witness for C3 at a concrete four-frame input with `speed = 1`. -/
theorem output_frame_count_witness :
    (7 / 10 ≤ (1 : ℝ) ∧ (1 : ℝ) ≤ 13 / 10 ∧ 0 < exInput.sampleRate ∧
      2 ≤ exInput.length ∧ exInput.length ≤ 2 ^ 31 ∧
      1 ≤ exInput.numberOfChannels ∧ exInput.numberOfChannels ≤ 32) ∧
    ∃ L : ℕ,
      (wavBytes (transformAudio zeroBackend exInput 5 1)).length
          = L * exInput.numberOfChannels * 2 + 44 ∧
      |(L : ℝ) - (round ((exInput.length : ℝ) / 1) : ℤ)| ≤ 1 ∧
      ∀ p : ℝ, (wavBytes (transformAudio zeroBackend exInput p 1)).length
          = L * exInput.numberOfChannels * 2 + 44 :=
  ⟨⟨by norm_num, by norm_num, by norm_num [exInput], by norm_num [exInput],
      by norm_num [exInput], by norm_num [exInput], by norm_num [exInput]⟩,
    output_frame_count zeroBackend exInput 5 1 (by norm_num) (by norm_num)
      (by norm_num [exInput]) (by norm_num [exInput]) (by norm_num [exInput])
      (by norm_num [exInput]) (by norm_num [exInput])⟩

/-- C6: when the rate-adjusted source is exhausted before the output window is
filled, each remaining frame is exactly zero in every channel: its two bytes
in the data section encode the quantized value of silence, `0`. -/
theorem trailing_silence (B : RenderBackend) (input : AudioBuffer ℝ)
    (pitch speed : ℝ) (f c : ℕ)
    (h1 : 1 ≤ input.numberOfChannels) (h2 : input.numberOfChannels ≤ 32)
    (h3 : 1 ≤ jsToUint32 ((input.length : ℝ) / input.sampleRate / speed * input.sampleRate))
    (hf : f < jsToUint32 ((input.length : ℝ) / input.sampleRate / speed * input.sampleRate))
    (hc : c < input.numberOfChannels)
    (hout : (input.length : ℝ) ≤ (f : ℝ) * (speed * (2 : ℝ) ^ (pitch / 12))) :
    (wavBytes (transformAudio B input pitch speed)).getD
        (44 + (f * input.numberOfChannels + c) * 2) 0 = 0 ∧
    (wavBytes (transformAudio B input pitch speed)).getD
        (44 + (f * input.numberOfChannels + c) * 2 + 1) 0 = 0 := by
  rw [transformAudio_ok B input pitch speed h1 h2 h3]
  simp only [wavBytes]
  by_cases hw : f < framesWritten
      (offlineRender B input (speed * (2 : ℝ) ^ (pitch / 12))
        (jsToUint32 ((input.length : ℝ) / input.sampleRate / speed * input.sampleRate))
        input.sampleRate).length
      (offlineRender B input (speed * (2 : ℝ) ^ (pitch / 12))
        (jsToUint32 ((input.length : ℝ) / input.sampleRate / speed * input.sampleRate))
        input.sampleRate).numberOfChannels
  · have hzero : chanData (offlineRender B input (speed * (2 : ℝ) ^ (pitch / 12))
        (jsToUint32 ((input.length : ℝ) / input.sampleRate / speed * input.sampleRate))
        input.sampleRate) c f = 0 :=
      chanData_offlineRender_silent B input _ _ _ f c hc hf hout
    constructor
    · have h := audioBufferToWav_data_getD (offlineRender B input
        (speed * (2 : ℝ) ^ (pitch / 12))
        (jsToUint32 ((input.length : ℝ) / input.sampleRate / speed * input.sampleRate))
        input.sampleRate) f c 0 hw hc (by omega) 0
      rw [hzero, sampleBytes_zero] at h
      exact h
    · have h := audioBufferToWav_data_getD (offlineRender B input
        (speed * (2 : ℝ) ^ (pitch / 12))
        (jsToUint32 ((input.length : ℝ) / input.sampleRate / speed * input.sampleRate))
        input.sampleRate) f c 1 hw hc (by omega) 0
      rw [hzero, sampleBytes_zero] at h
      exact h
  · exact ⟨audioBufferToWav_pad_getD (offlineRender B input
        (speed * (2 : ℝ) ^ (pitch / 12))
        (jsToUint32 ((input.length : ℝ) / input.sampleRate / speed * input.sampleRate))
        input.sampleRate) f c 0 (not_lt.mp hw),
      audioBufferToWav_pad_getD (offlineRender B input
        (speed * (2 : ℝ) ^ (pitch / 12))
        (jsToUint32 ((input.length : ℝ) / input.sampleRate / speed * input.sampleRate))
        input.sampleRate) f c 1 (not_lt.mp hw)⟩

/-- Witness for C6: four input frames, `pitch = 12`, `speed = 2`, so the
combined rate is `4` and the source is exhausted at output frame 1 of 2. -/
theorem trailing_silence_witness :
    (1 ≤ exInput.numberOfChannels ∧ exInput.numberOfChannels ≤ 32 ∧
      1 ≤ jsToUint32 ((exInput.length : ℝ) / exInput.sampleRate / 2 * exInput.sampleRate) ∧
      1 < jsToUint32 ((exInput.length : ℝ) / exInput.sampleRate / 2 * exInput.sampleRate) ∧
      (exInput.length : ℝ) ≤ ((1 : ℕ) : ℝ) * (2 * (2 : ℝ) ^ ((12 : ℝ) / 12))) ∧
    ((wavBytes (transformAudio zeroBackend exInput 12 2)).getD
        (44 + (1 * exInput.numberOfChannels + 0) * 2) 0 = 0 ∧
      (wavBytes (transformAudio zeroBackend exInput 12 2)).getD
        (44 + (1 * exInput.numberOfChannels + 0) * 2 + 1) 0 = 0) := by
  have hexpr : ((exInput.length : ℕ) : ℝ) / exInput.sampleRate / 2 * exInput.sampleRate = 2 := by
    norm_num [exInput]
  have hL : jsToUint32 ((exInput.length : ℝ) / exInput.sampleRate / 2 * exInput.sampleRate)
      = 2 := by
    rw [hexpr, jsToUint32_eq_floor 2 (by norm_num) (by norm_num)]
    rw [show ⌊(2 : ℝ)⌋ = 2 by norm_num]
    rfl
  have hout : (exInput.length : ℝ) ≤ ((1 : ℕ) : ℝ) * (2 * (2 : ℝ) ^ ((12 : ℝ) / 12)) := by
    have h12 : ((12 : ℝ) / 12) = 1 := by norm_num
    rw [h12, Real.rpow_one]
    norm_num [exInput]
  refine ⟨⟨by norm_num [exInput], by norm_num [exInput], by rw [hL] ; norm_num,
      by rw [hL] ; norm_num, hout⟩, ?_⟩
  exact trailing_silence zeroBackend exInput 12 2 1 0 (by norm_num [exInput])
    (by norm_num [exInput]) (by rw [hL]; norm_num) (by rw [hL]; norm_num)
    (by norm_num [exInput]) hout

/-- C9: the transform's rendered buffer keeps the input's channel count and
sample rate, and the container header declares the same channel count
(offset 22) and sample rate (offset 24) as the decoded input. -/
theorem output_channels_sample_rate (B : RenderBackend) (input : AudioBuffer ℝ)
    (pitch speed : ℝ)
    (h1 : 1 ≤ input.numberOfChannels) (h2 : input.numberOfChannels ≤ 32)
    (h3 : 1 ≤ jsToUint32 ((input.length : ℝ) / input.sampleRate / speed * input.sampleRate))
    (hsr : input.sampleRate < 2 ^ 32) :
    (∀ (rate : ℝ) (len : ℕ),
      (offlineRender B input rate len input.sampleRate).numberOfChannels
          = input.numberOfChannels ∧
      (offlineRender B input rate len input.sampleRate).sampleRate
          = input.sampleRate) ∧
    readU16 (wavBytes (transformAudio B input pitch speed)) 22
        = input.numberOfChannels ∧
    readU32 (wavBytes (transformAudio B input pitch speed)) 24
        = input.sampleRate := by
  refine ⟨fun rate len => ⟨rfl, rfl⟩, ?_, ?_⟩
  · rw [transformAudio_ok B input pitch speed h1 h2 h3]
    simp only [wavBytes]
    rw [wav_readU16_22, offlineRender_numberOfChannels]
    omega
  · rw [transformAudio_ok B input pitch speed h1 h2 h3]
    simp only [wavBytes]
    rw [wav_readU32_24, offlineRender_sampleRate]
    omega

/-- Witness for C9 at a concrete input with `pitch = 0`, `speed = 1`. -/
theorem output_channels_sample_rate_witness :
    (1 ≤ exInput.numberOfChannels ∧ exInput.numberOfChannels ≤ 32 ∧
      1 ≤ jsToUint32 ((exInput.length : ℝ) / exInput.sampleRate / 1 * exInput.sampleRate) ∧
      exInput.sampleRate < 2 ^ 32) ∧
    ((∀ (rate : ℝ) (len : ℕ),
        (offlineRender zeroBackend exInput rate len exInput.sampleRate).numberOfChannels
            = exInput.numberOfChannels ∧
        (offlineRender zeroBackend exInput rate len exInput.sampleRate).sampleRate
            = exInput.sampleRate) ∧
      readU16 (wavBytes (transformAudio zeroBackend exInput 0 1)) 22
          = exInput.numberOfChannels ∧
      readU32 (wavBytes (transformAudio zeroBackend exInput 0 1)) 24
          = exInput.sampleRate) := by
  have h3 : 1 ≤ jsToUint32 ((exInput.length : ℝ) / exInput.sampleRate / 1 * exInput.sampleRate) := by
    have hx : ((exInput.length : ℕ) : ℝ) / exInput.sampleRate / 1 * exInput.sampleRate = 4 := by
      norm_num [exInput]
    rw [hx, jsToUint32_eq_floor 4 (by norm_num) (by norm_num)]
    norm_num
  exact ⟨⟨by norm_num [exInput], by norm_num [exInput], h3, by norm_num [exInput]⟩,
    output_channels_sample_rate zeroBackend exInput 0 1 (by norm_num [exInput])
      (by norm_num [exInput]) h3 (by norm_num [exInput])⟩

end Ref3t
